import Mathlib

/-!
Verification of the job-scheduler module of `addon/lib/simulator-steps.js`
(the `JobScheduler` / `Job` / `CompositeJob` family built around the
`Job:fsm` event handler).

The JavaScript engine is a per-job finite state machine over the phases
NEW, RUN, CANCEL, CLEANUP, COMPLETED, driven by internal events emitted
on the `Job:fsm` channel (`enterRun`, `timeout`, `abort`, `retry`,
`exitRun`, `enterCancel`, `exitCancel`, `enterCleanup`, `exitCleanup`)
and external requests (`run`, `abort`, `cleanup`).  The SDK's `emit` is
synchronous, and in the deterministic scenarios the claims are about a
handler either signals its completer synchronously (resolve, reject or a
synchronous throw) or never signals it, in which case the only pending
transition is the phase timeout (when one is configured).  The embedding
below therefore models a run of the machine as a fuel-indexed functional
interpreter `fsm` over explicit job state, with handler bodies abstracted
by their observable behaviour (`HBehavior`).  Handler invocation counts,
the user-facing deferreds (`waiters` / `resolvedWaiters` / `rejections`)
and all the `priv` record fields of the source are tracked explicitly.
-/

/-- Observable behaviour of a user supplied handler (`handleRun`,
`handleCancel`, `handleCleanup`): it may resolve its deferred, reject it
with an error, throw a synchronous error, or never signal it at all. -/
inductive HBehavior where
  | resolve : HBehavior
  | reject  : String → HBehavior
  | throwE  : String → HBehavior
  | never   : HBehavior
deriving Repr, DecidableEq

/-- The three lifecycle handlers of a Job, abstracted by behaviour.
In the source these are the `handleRun` / `handleCancel` /
`handleCleanup` methods supplied by the Job subclass. -/
structure Behaviors where
  runB     : HBehavior
  cancelB  : HBehavior
  cleanupB : HBehavior
deriving Repr, DecidableEq

/-- `priv.state` of a Job: the five FSM states of the source. -/
inductive Phase where
  | NEW | RUN | CANCEL | CLEANUP | COMPLETED
deriving Repr, DecidableEq

/-- The `priv` record of a Job (namespace `nsSched`), plus invocation
counters for the three handlers and bookkeeping for the user-facing
deferreds: `waiters` counts deferreds pushed onto `priv.userDeferred`
and not yet resolved, `resolvedWaiters` counts those resolved by
`_doExit`, and `rejections` counts request deferreds rejected with an
invalid-transition error.  Errors are modelled by their message. -/
structure JobState where
  phase          : Phase
  retries        : Nat
  success        : Option Bool
  error          : Option String
  abortR         : Option String
  successCancel  : Option Bool
  errorCancel    : Option String
  successCleanup : Option Bool
  errorCleanup   : Option String
  autoCleanup    : Bool
  hasTimeout     : Bool
  runCount       : Nat
  cancelCount    : Nat
  cleanupCount   : Nat
  waiters        : Nat
  resolvedWaiters : Nat
  rejections     : Nat
deriving Repr, DecidableEq

/-- Events of the `Job:fsm` channel.  `run`, `abort` and `cleanupReq`
are the external requests (which may carry a user deferred); the rest
are internal events emitted by the machine itself (internal events
never carry a user deferred in the source). -/
inductive Event where
  | run        : Bool → Bool → Event      -- autoCleanup flag, hasUser
  | abort      : String → Bool → Event    -- reason, hasUser
  | cleanupReq : Bool → Event             -- hasUser
  | enterRun   : Bool → Event             -- autoCleanup flag
  | enterCancel : Event
  | enterCleanup : Event
  | timeout    : Event
  | retry      : Event
  | exitRun    : Bool → Option String → Event
  | exitCancel : Bool → Option String → Event
  | exitCleanup : Bool → Option String → Event
deriving Repr, DecidableEq

/-- Construction options of a Job (`priv.options`): `maxRetries` and
`timeout` (both optional; in the source a falsy value counts as
absent). -/
structure JobOptions where
  maxRetries : Option Nat
  timeout    : Option Nat
deriving Repr, DecidableEq

/-- `Job.initialize`: `priv.retries = priv.retries || priv.options.maxRetries || 1`
and `priv.state = "NEW"`.  `hasTimeout` records whether
`priv.options.timeout` is truthy (`_startTimeout` arms a timer only in
that case). -/
def initJob (opts : JobOptions) : JobState where
  phase          := Phase.NEW
  retries        := match opts.maxRetries with
                    | some n => if n = 0 then 1 else n
                    | none   => 1
  success        := none
  error          := none
  abortR         := none
  successCancel  := none
  errorCancel    := none
  successCleanup := none
  errorCleanup   := none
  autoCleanup    := false
  hasTimeout     := match opts.timeout with
                    | some t => t != 0
                    | none   => false
  runCount       := 0
  cancelCount    := 0
  cleanupCount   := 0
  waiters        := 0
  resolvedWaiters := 0
  rejections     := 0

/-- JavaScript truthiness of an `Option Bool` field such as
`priv.successCleanup` (only `some true` is truthy; `undefined` and
`false` are falsy). -/
def optTrue : Option Bool → Bool
  | some true => true
  | _ => false

/-- `Job._doExit`: set state COMPLETED and resolve every pending user
deferred. -/
def doExit (st : JobState) : JobState :=
  { st with phase := Phase.COMPLETED
          , resolvedWaiters := st.resolvedWaiters + st.waiters
          , waiters := 0 }

/-- One-fact helper: number of new waiters contributed by a request
that carries a user deferred. -/
def userPush (hasUser : Bool) : Nat := if hasUser then 1 else 0

/-- The `Job:fsm` event handler `Job._handleFSMEvent` together with the
per-state handlers `_handleOnNewState`, `_handleOnRunState`,
`_handleOnCancelState`, `_handleOnCleanupState`,
`_handleOnCompletedState` and the helpers `_goRun`, `_goCancel`,
`_goCleanup`, `_doRun`, `_doCancel`, `_doCleanup`, `_doRetry`,
`_doAbort`, `_doExit` of the source.  Handler bodies are replaced by
their behaviour: a handler that signals its deferred synchronously
produces the matching `exit*` event (a synchronous throw is caught by
`_doRun` / `_doCancel` / `_doCleanup` and produces the same failure
event), and a handler that never signals leaves the phase timeout (if
armed) as the only enabled transition.  The `fuel` argument only bounds
the recursion; every terminating scenario below is given enough fuel. -/
def fsmStep (beh : Behaviors) (st : JobState) (ev : Event) :
    JobState ⊕ (JobState × Event) :=
  match st.phase, ev with
    -- _handleOnNewState
    | Phase.NEW, Event.run ac hasUser =>
      -- priv.userDeferred.push(req.userDeferred); this._goRun(req)
      Sum.inr ({ st with waiters := st.waiters + userPush hasUser
                       , phase := Phase.RUN }, Event.enterRun ac)
    | Phase.NEW, Event.abort _ hasUser =>
      Sum.inl { st with rejections := st.rejections + userPush hasUser }
    | Phase.NEW, Event.cleanupReq hasUser =>
      Sum.inl { st with rejections := st.rejections + userPush hasUser }
    | Phase.NEW, _ => Sum.inl st
    -- _handleOnRunState
    | Phase.RUN, Event.enterRun ac =>
      if st.retries > 0 then
        -- priv.autoCleanup = req.autoCleanup; _startTimeout(); _doRun()
        let st := { st with autoCleanup := ac, runCount := st.runCount + 1 }
        match beh.runB with
        | HBehavior.resolve  => Sum.inr (st, Event.exitRun true none)
        | HBehavior.reject e => Sum.inr (st, Event.exitRun false (some e))
        | HBehavior.throwE e =>
          -- the catch block of _doRun emits the same exitRun failure
          Sum.inr (st, Event.exitRun false (some e))
        | HBehavior.never    =>
          if st.hasTimeout then Sum.inr (st, Event.timeout) else Sum.inl st
      else
        -- emit {type: "abort", reason: "max retries already reached"}
        Sum.inr (st, Event.abort "max retries already reached" false)
    | Phase.RUN, Event.timeout =>
      -- _goCancel
      Sum.inr ({ st with phase := Phase.CANCEL }, Event.enterCancel)
    | Phase.RUN, Event.abort r hasUser =>
      let st := { st with success := some false
                        , error := some "aborted"
                        , abortR := some r
                        , waiters := st.waiters + userPush hasUser
                        , retries := 0 }
      Sum.inr ({ st with phase := Phase.CANCEL }, Event.enterCancel)
    | Phase.RUN, Event.retry =>
      if st.retries > 1 then
        -- priv.retries--; emit(this, "Job:fsm", priv.runRequest)
        Sum.inr ({ st with retries := st.retries - 1 },
          Event.enterRun st.autoCleanup)
      else
        let st := { st with success := some false
                          , error := some "max retries reached" }
        if st.autoCleanup then
          Sum.inr ({ st with phase := Phase.CLEANUP }, Event.enterCleanup)
        else Sum.inl (doExit st)
    | Phase.RUN, Event.exitRun s e =>
      let st := { st with success := some s, error := e }
      if st.autoCleanup then
        Sum.inr ({ st with phase := Phase.CLEANUP }, Event.enterCleanup)
      else Sum.inl (doExit st)
    | Phase.RUN, Event.run _ hasUser =>
      Sum.inl { st with rejections := st.rejections + userPush hasUser }
    | Phase.RUN, Event.cleanupReq hasUser =>
      Sum.inl { st with rejections := st.rejections + userPush hasUser }
    | Phase.RUN, _ => Sum.inl st
    -- _handleOnCancelState
    | Phase.CANCEL, Event.enterCancel =>
      -- _startTimeout(); _doCancel()
      let st := { st with cancelCount := st.cancelCount + 1 }
      match beh.cancelB with
      | HBehavior.resolve  =>
        Sum.inr ({ st with successCancel := some true },
          Event.exitCancel true none)
      | HBehavior.reject e =>
        Sum.inr ({ st with successCancel := some false
                         , errorCancel := some e },
          Event.exitCancel false (some e))
      | HBehavior.throwE e =>
        Sum.inr ({ st with successCancel := some false
                         , errorCancel := some e },
          Event.exitCancel false (some e))
      | HBehavior.never    =>
        if st.hasTimeout then Sum.inr (st, Event.timeout) else Sum.inl st
    | Phase.CANCEL, Event.abort r hasUser =>
      -- priv.abort = req.reason; _clearTimeout(); _doAbort()
      let st := { st with abortR := some r
                        , waiters := st.waiters + userPush hasUser }
      Sum.inr ({ st with phase := Phase.RUN, retries := 0 }, Event.retry)
    | Phase.CANCEL, Event.timeout =>
      -- warn; _doAbort()
      Sum.inr ({ st with phase := Phase.RUN, retries := 0 }, Event.retry)
    | Phase.CANCEL, Event.exitCancel _ _ =>
      -- warn on failure; _doRetry()
      Sum.inr ({ st with phase := Phase.RUN }, Event.retry)
    | Phase.CANCEL, Event.run _ hasUser =>
      Sum.inl { st with rejections := st.rejections + userPush hasUser }
    | Phase.CANCEL, Event.cleanupReq hasUser =>
      Sum.inl { st with rejections := st.rejections + userPush hasUser }
    | Phase.CANCEL, _ => Sum.inl st
    -- _handleOnCleanupState
    | Phase.CLEANUP, Event.enterCleanup =>
      -- _startTimeout(); _doCleanup()
      let st := { st with cleanupCount := st.cleanupCount + 1 }
      match beh.cleanupB with
      | HBehavior.resolve  =>
        Sum.inr ({ st with successCleanup := some true },
          Event.exitCleanup true none)
      | HBehavior.reject e =>
        Sum.inr ({ st with successCleanup := some false
                         , errorCleanup := some e },
          Event.exitCleanup false (some e))
      | HBehavior.throwE e =>
        Sum.inr ({ st with successCleanup := some false
                         , errorCleanup := some e },
          Event.exitCleanup false (some e))
      | HBehavior.never    =>
        if st.hasTimeout then Sum.inr (st, Event.timeout) else Sum.inl st
    | Phase.CLEANUP, Event.abort r hasUser =>
      Sum.inl (doExit { st with abortR := some r
                              , waiters := st.waiters + userPush hasUser })
    | Phase.CLEANUP, Event.timeout => Sum.inl (doExit st)
    | Phase.CLEANUP, Event.exitCleanup _ _ => Sum.inl (doExit st)
    | Phase.CLEANUP, Event.run _ hasUser =>
      Sum.inl { st with rejections := st.rejections + userPush hasUser }
    | Phase.CLEANUP, Event.cleanupReq hasUser =>
      Sum.inl { st with rejections := st.rejections + userPush hasUser }
    | Phase.CLEANUP, _ => Sum.inl st
    -- _handleOnCompletedState
    | Phase.COMPLETED, Event.cleanupReq hasUser =>
      if !st.autoCleanup && !optTrue st.successCleanup then
        Sum.inr ({ st with waiters := st.waiters + userPush hasUser
                         , phase := Phase.CLEANUP }, Event.enterCleanup)
      else
        Sum.inl { st with rejections := st.rejections + userPush hasUser }
    | Phase.COMPLETED, Event.exitCleanup _ _ => Sum.inl (doExit st)
    | Phase.COMPLETED, Event.run _ hasUser =>
      Sum.inl { st with rejections := st.rejections + userPush hasUser }
    | Phase.COMPLETED, Event.abort _ hasUser =>
      Sum.inl { st with rejections := st.rejections + userPush hasUser }
    | Phase.COMPLETED, _ => Sum.inl st

/-- The synchronous event cascade: process one event with `fsmStep`
and, as long as a follow-up event was emitted, keep going.  The `fuel`
argument only bounds the recursion; every terminating scenario below
is given enough fuel. -/
def fsm (beh : Behaviors) : Nat → JobState → Event → JobState
  | 0, st, _ => st
  | fuel+1, st, ev =>
    match fsmStep beh st ev with
    | Sum.inl st' => st'
    | Sum.inr (st', ev') => fsm beh fuel st' ev'

/-- Sufficient fuel for any request issued against `st`: the machine
re-enters RUN at most `retries` times, each RUN/CANCEL round consumes
five events and the trailing cleanup path at most seven. -/
def fuelBound (st : JobState) : Nat := 5 * st.retries + 16

/-- `Job.run(ctx, autoCleanup)`: emit a `run` request with a fresh user
deferred. -/
def runJob (beh : Behaviors) (st : JobState) (ac : Bool) : JobState :=
  fsm beh (fuelBound st) st (Event.run ac true)

/-- `Job.abort(reason)`: emit an `abort` request with a fresh user
deferred. -/
def abortJob (beh : Behaviors) (st : JobState) (r : String) : JobState :=
  fsm beh (fuelBound st) st (Event.abort r true)

/-- `Job.cleanup()`: emit a `cleanup` request with a fresh user
deferred. -/
def cleanupJob (beh : Behaviors) (st : JobState) : JobState :=
  fsm beh (fuelBound st) st (Event.cleanupReq true)

/-! ## CompositeJob

`CompositeJob` extends `Job`; its `handleRun` / `handleCleanup` emit
`CompositeJob:fsm` events whose handlers walk the child jobs forward
(`_handleComposedOnRunState`) and, during cleanup, backward
(`_handleComposedOnCleanupState`).  Each child is itself a `Job`: the
composite runs it with `step.run(ctx, false)` (auto-cleanup disabled)
and cleans it with the explicit `step.cleanup()` request. -/

/-- A progress record as emitted by the composite's `progress` and
`cleanupProgress` events: `{index, total, success, error}`. -/
structure Progress where
  index   : Nat
  total   : Nat
  success : Option Bool
  error   : Option String
deriving Repr, DecidableEq

/-- `step.run(ctx, false)` on a freshly constructed child job (children
of a composite have no options of their own in the scenarios the
claims quantify over). -/
def runChildJob (b : Behaviors) : JobState :=
  runJob b (initJob ⟨none, none⟩) false

/-- Result of the composite's forward pass.  `states` holds the final
states of the children that entered RUN (in index order), `prog` the
emitted `progress` records, `stoppedIndex` the value of
`priv.currentStepIndex` when the pass ended, `fail = some e` means the
composite's run deferred was rejected with `e`, and `stalled` means a
child's run promise never resolved, leaving the composite stuck. -/
structure FwdResult where
  states       : List JobState
  prog         : List Progress
  stoppedIndex : Int
  fail         : Option (Option String)
  stalled      : Bool
deriving Repr, DecidableEq

/-- `CompositeJob._handleComposedOnRunState`, case `doRun`: run the
child at the current index; on completion emit progress; on child
success advance and recurse, on child failure reject the composite's
run deferred with the child's error; past the last index set
`currentStepIndex = totalSteps - 1` and resolve. -/
def forward (total i : Nat) : List Behaviors → FwdResult
  | [] => { states := [], prog := [], stoppedIndex := (total : Int) - 1
          , fail := none, stalled := false }
  | c :: rest =>
    let s := runChildJob c
    if s.phase = Phase.COMPLETED then
      let p : Progress := { index := i, total := total
                          , success := s.success, error := s.error }
      if optTrue s.success then
        let r := forward total (i+1) rest
        { r with states := s :: r.states, prog := p :: r.prog }
      else
        { states := [s], prog := [p], stoppedIndex := (i : Int)
        , fail := some s.error, stalled := false }
    else
      { states := [s], prog := [], stoppedIndex := (i : Int)
      , fail := none, stalled := true }

/-- Result of the composite's backward cleanup pass: the emitted
`cleanupProgress` records, `fail = some e` iff the composite's cleanup
deferred was rejected with `e` (first child cleanup failure), and
`stalled` iff a child's cleanup request never resolved its promise. -/
structure CleanupPassResult where
  prog    : List Progress
  fail    : Option (Option String)
  stalled : Bool
deriving Repr, DecidableEq

/-- Outcome of one backward cleanup step at a single index: the child's
cleanup promise never resolved (stall), resolved with the child's
cleanup failed (the composite's cleanup deferred is rejected), or
resolved with the child's cleanup succeeded (decrement and go on). -/
inductive CleanupStepOut where
  | stalledStep : CleanupStepOut
  | rejected : Progress → Option String → CleanupStepOut
  | ok : Progress → CleanupStepOut
deriving Repr, DecidableEq

/-- One step of `CompositeJob._handleComposedOnCleanupState`, case
`doCleanup`, at index `n`: invoke `steps[n].cleanup()`; when its
promise resolves, emit the `cleanupProgress` record and test the
child's `successCleanup`. -/
def cleanupStepAt (total : Nat) (specs : List Behaviors)
    (states : List JobState) (n : Nat) : CleanupStepOut :=
  match specs[n]?, states[n]? with
  | some b, some s =>
    let s' := cleanupJob b s
    if s'.phase = Phase.COMPLETED ∧ s'.rejections = s.rejections then
      let p : Progress := { index := n, total := total
                          , success := s'.successCleanup
                          , error := s'.errorCleanup }
      if optTrue s'.successCleanup then CleanupStepOut.ok p
      else CleanupStepOut.rejected p s'.errorCleanup
    else CleanupStepOut.stalledStep
  | _, _ => CleanupStepOut.stalledStep

/-- `CompositeJob._handleComposedOnCleanupState`, case `doCleanup`,
iterated from index `n` down to 0: on child cleanup success decrement
`priv.currentStepIndex` and recurse, on failure reject the composite's
cleanup deferred with the child's `errorCleanup` and stop. -/
def cleanupFromNat (total : Nat) (specs : List Behaviors)
    (states : List JobState) : Nat → CleanupPassResult
  | 0 =>
    match cleanupStepAt total specs states 0 with
    | CleanupStepOut.stalledStep => { prog := [], fail := none, stalled := true }
    | CleanupStepOut.rejected p e => { prog := [p], fail := some e, stalled := false }
    | CleanupStepOut.ok p => { prog := [p], fail := none, stalled := false }
  | m+1 =>
    match cleanupStepAt total specs states (m+1) with
    | CleanupStepOut.stalledStep => { prog := [], fail := none, stalled := true }
    | CleanupStepOut.rejected p e => { prog := [p], fail := some e, stalled := false }
    | CleanupStepOut.ok p =>
      let r := cleanupFromNat total specs states m
      { r with prog := p :: r.prog }

/-- The cleanup pass from `priv.currentStepIndex`; a negative index
resolves the composite's cleanup deferred immediately. -/
def cleanupStart (total : Nat) (specs : List Behaviors)
    (states : List JobState) (i : Int) : CleanupPassResult :=
  if i < 0 then { prog := [], fail := none, stalled := false }
  else cleanupFromNat total specs states i.toNat

/-- Observable outcome of running a CompositeJob: the composite's own
Job state and the two progress event streams. -/
structure CompositeOutcome where
  job             : JobState
  progress        : List Progress
  cleanupProgress : List Progress
deriving Repr, DecidableEq

/-- `CompositeJob(...).run(ctx)` with the default options (no timeout,
one attempt, auto-cleanup on).  The composite's own `Job:fsm` takes
the NEW → RUN → enterRun path, its `handleRun` drives the children
forward; the run deferred's resolution feeds `exitRun`, auto-cleanup
enters CLEANUP, `handleCleanup` drives the backward pass from
`priv.currentStepIndex`, and the cleanup deferred's resolution feeds
`exitCleanup` and `_doExit`. -/
def runComposite (children : List Behaviors) : CompositeOutcome :=
  let total := children.length
  -- Job._handleOnNewState run + _handleOnRunState enterRun bookkeeping
  let st1 : JobState :=
    { initJob ⟨none, none⟩ with
        phase := Phase.RUN, autoCleanup := true
      , runCount := 1, waiters := 1 }
  let fwd := forward total 0 children
  if fwd.stalled then
    { job := st1, progress := fwd.prog, cleanupProgress := [] }
  else
    -- Job._handleOnRunState, case exitRun, with autoCleanup on:
    -- record success/error and go to CLEANUP, which invokes
    -- handleCleanup once (the backward pass).
    let st2 : JobState :=
      { st1 with success := some fwd.fail.isNone
               , error := match fwd.fail with
                          | some e => e
                          | none => none
               , phase := Phase.CLEANUP
               , cleanupCount := 1 }
    let cp := cleanupStart total children fwd.states fwd.stoppedIndex
    if cp.stalled then
      { job := st2, progress := fwd.prog, cleanupProgress := cp.prog }
    else
      match cp.fail with
      | none =>
        { job := doExit { st2 with successCleanup := some true }
        , progress := fwd.prog, cleanupProgress := cp.prog }
      | some e =>
        { job := doExit { st2 with successCleanup := some false
                                 , errorCleanup := e }
        , progress := fwd.prog, cleanupProgress := cp.prog }

/-! ## JobScheduler -/

/-- Construction options passed to `enqueueJob` (the claims only need
`failOnBusy` and the wrapped job's own options plus handlers). -/
structure JobConfig where
  failOnBusy : Bool
  opts       : JobOptions
  beh        : Behaviors
deriving Repr, DecidableEq

/-- A queued job: its fresh `jobId` (the source uses a UUID; freshness
is modelled by a strictly increasing counter), its handlers and its
state. -/
structure SchedJob where
  jobId : Nat
  beh   : Behaviors
  st    : JobState
deriving Repr, DecidableEq

/-- Scheduler state: `priv.queue` plus the id source. -/
structure Scheduler where
  queue  : List SchedJob
  nextId : Nat
deriving Repr, DecidableEq

/-- `JobScheduler.isBusy`: `priv.queue.length > 0`. -/
def isBusy (s : Scheduler) : Bool := s.queue.length > 0

/-- `JobScheduler.enqueueJob`: build the job and assign a fresh id;
if `failOnBusy` is set and the scheduler is busy return the `null`
sentinel (the generated id is consumed either way), otherwise push the
job and emit `pushed`.  The returned Bool records whether `pushed` was
emitted.  Execution is not started: the job stays in NEW. -/
def enqueueJob (s : Scheduler) (cfg : JobConfig) :
    Scheduler × Option SchedJob × Bool :=
  let job : SchedJob := { jobId := s.nextId, beh := cfg.beh
                        , st := initJob cfg.opts }
  if cfg.failOnBusy && isBusy s then
    ({ s with nextId := s.nextId + 1 }, none, false)
  else
    ({ queue := s.queue ++ [job], nextId := s.nextId + 1 }, some job, true)

/-- `JobScheduler.processQueue`: shift the head off the queue and, if
present, run it (`job.run(priv.state)`, auto-cleanup defaulted on).
The shift happens before the run starts. -/
def processQueue (s : Scheduler) : Scheduler × Option SchedJob :=
  match s.queue with
  | [] => (s, none)
  | j :: rest =>
    ({ s with queue := rest }, some { j with st := runJob j.beh j.st true })

/-! ## Derived observables and helper values used by the theorems -/

/-- `Job.isAbort`: `!!priv.abort`. -/
def isAbort (st : JobState) : Bool := st.abortR.isSome

/-- A child job whose three handlers all resolve synchronously. -/
def okB : Behaviors :=
  ⟨HBehavior.resolve, HBehavior.resolve, HBehavior.resolve⟩

/-- A child job whose run handler rejects with `e` and whose other
handlers resolve. -/
def failB (e : String) : Behaviors :=
  ⟨HBehavior.reject e, HBehavior.resolve, HBehavior.resolve⟩

/-- A child job that runs fine but whose cleanup handler rejects
with `e`. -/
def badCleanB (e : String) : Behaviors :=
  ⟨HBehavior.resolve, HBehavior.resolve, HBehavior.reject e⟩

/-- `successCancel` / `successCleanup` value left behind by a handler
behaviour once its phase has exited (a handler that never signals
leaves the field unset; the phase is then exited by the timeout). -/
def sigSC : HBehavior → Option Bool
  | HBehavior.resolve  => some true
  | HBehavior.reject _ => some false
  | HBehavior.throwE _ => some false
  | HBehavior.never    => none

/-- `errorCancel` / `errorCleanup` value left behind by a handler
behaviour once its phase has exited. -/
def sigEC : HBehavior → Option String
  | HBehavior.reject e => some e
  | HBehavior.throwE e => some e
  | _                  => none

/-- `successCancel` after one cancel round: a resolving handler sets
it to true, a rejecting or throwing one to false, and a handler that
never signals leaves the previous value. -/
def sigSCAfter (b : HBehavior) (prev : Option Bool) : Option Bool :=
  match b with
  | HBehavior.resolve  => some true
  | HBehavior.reject _ => some false
  | HBehavior.throwE _ => some false
  | HBehavior.never    => prev

/-- `errorCancel` after one cancel round: only a rejecting or throwing
handler overwrites it (a resolving handler does not clear it). -/
def sigECAfter (b : HBehavior) (prev : Option String) : Option String :=
  match b with
  | HBehavior.reject e => some e
  | HBehavior.throwE e => some e
  | _                  => prev

/-- The job state at the moment an `enterRun` event is processed in
the retry-budget scenario of claim C1 (run handler never signals, a
timeout is configured, auto-cleanup on, one pending run waiter):
`r` retries remain, the handlers have been invoked `rc` / `cc` times,
and the cancel outcome fields hold `sc` / `ec`.  The `a` parameter is
the current `priv.autoCleanup` value (it is overwritten by each
`enterRun`). -/
def C1St (r rc cc : Nat) (sc : Option Bool) (ec : Option String)
    (a : Bool) : JobState where
  phase          := Phase.RUN
  retries        := r
  success        := none
  error          := none
  abortR         := none
  successCancel  := sc
  errorCancel    := ec
  successCleanup := none
  errorCleanup   := none
  autoCleanup    := a
  hasTimeout     := true
  runCount       := rc
  cancelCount    := cc
  cleanupCount   := 0
  waiters        := 1
  resolvedWaiters := 0
  rejections     := 0

/-- The CANCEL-phase variant of `C1St` (reached after a run timeout in
the retry-budget scenario). -/
def C1StC (r rc cc : Nat) (sc : Option Bool) (ec : Option String) : JobState :=
  { C1St r rc cc sc ec true with phase := Phase.CANCEL }

/-- The final job state of the retry-budget scenario of claim C1 after
`rc` run attempts and `cc` cancel rounds, with cancel outcome fields
`sca` / `eca` and cleanup behaviour `kb`. -/
def C1Final (rc cc : Nat) (sca : Option Bool) (eca : Option String)
    (kb : HBehavior) : JobState where
  phase          := Phase.COMPLETED
  retries        := 1
  success        := some false
  error          := some "max retries reached"
  abortR         := none
  successCancel  := sca
  errorCancel    := eca
  successCleanup := sigSC kb
  errorCleanup   := sigEC kb
  autoCleanup    := true
  hasTimeout     := true
  runCount       := rc
  cancelCount    := cc
  cleanupCount   := 1
  waiters        := 0
  resolvedWaiters := 1
  rejections     := 0

/-- Final state of a composite child whose run handler resolved
(run with auto-cleanup off): see `runChild_resolve`. -/
def okChildState : JobState where
  phase          := Phase.COMPLETED
  retries        := 1
  success        := some true
  error          := none
  abortR         := none
  successCancel  := none
  errorCancel    := none
  successCleanup := none
  errorCleanup   := none
  autoCleanup    := false
  hasTimeout     := false
  runCount       := 1
  cancelCount    := 0
  cleanupCount   := 0
  waiters        := 0
  resolvedWaiters := 1
  rejections     := 0

/-- Final state of a composite child whose run handler rejected with
`e` (run with auto-cleanup off): see `runChild_reject`. -/
def failRunState (e : String) : JobState :=
  { okChildState with success := some false, error := some e }

/-- A child state after its explicit cleanup succeeded. -/
def cleanedOk : JobState :=
  { okChildState with cleanupCount := 1, successCleanup := some true
                    , resolvedWaiters := 2 }

/-- The failed child state after its explicit cleanup succeeded. -/
def cleanedFail (e : String) : JobState :=
  { failRunState e with cleanupCount := 1, successCleanup := some true
                      , resolvedWaiters := 2 }

/-- A child state after its explicit cleanup rejected with `e`. -/
def cleanedBad (e : String) : JobState :=
  { okChildState with cleanupCount := 1, successCleanup := some false
                    , errorCleanup := some e, resolvedWaiters := 2 }

/-- The `progress` records emitted by `k` successful children starting
at index `i`. -/
def okFwdTrace (total i : Nat) : Nat → List Progress
  | 0 => []
  | k+1 =>
    { index := i, total := total, success := some true, error := none }
      :: okFwdTrace total (i+1) k

/-- The `cleanupProgress` records of a backward pass from index `n`
through `k` further indices, every child cleanup succeeding. -/
def okCleanupTrace (total : Nat) : Nat → Nat → List Progress
  | n, 0 => [{ index := n, total := total, success := some true, error := none }]
  | n, k+1 =>
    { index := n, total := total, success := some true, error := none }
      :: okCleanupTrace total (n-1) k

/-- The `cleanupProgress` records of a backward pass from index `n`
whose `k` leading child cleanups succeed and whose last visited child
cleanup fails with `e` (the pass stops there). -/
def cleanupTrace (total : Nat) (e : Option String) : Nat → Nat → List Progress
  | n, 0 => [{ index := n, total := total, success := some false, error := e }]
  | n, k+1 =>
    { index := n, total := total, success := some true, error := none }
      :: cleanupTrace total e (n-1) k

/-- The descending index list `[n, n-1, ..., n-k]`. -/
def downSeg : Nat → Nat → List Nat
  | n, 0 => [n]
  | n, k+1 => n :: downSeg (n-1) k

/-! ## Theorems -/

/-! ## Claims -/

/-- C7: a synchronous throw in `handleRun` is treated exactly as a
rejection with the same error: the whole job run is identical to the
rejection run, and with the default `maxRetries = 1` and auto-cleanup
on the run handler fires once, cleanup fires once, and the job
completes with `success = false` and the thrown error. -/
theorem c7_sync_throw_is_rejection (e : String) (cb : HBehavior) :
    runJob ⟨HBehavior.throwE e, cb, HBehavior.resolve⟩ (initJob ⟨none, none⟩) true
      = runJob ⟨HBehavior.reject e, cb, HBehavior.resolve⟩ (initJob ⟨none, none⟩) true
    ∧ (runJob ⟨HBehavior.throwE e, cb, HBehavior.resolve⟩ (initJob ⟨none, none⟩) true).phase
        = Phase.COMPLETED
    ∧ (runJob ⟨HBehavior.throwE e, cb, HBehavior.resolve⟩ (initJob ⟨none, none⟩) true).runCount = 1
    ∧ (runJob ⟨HBehavior.throwE e, cb, HBehavior.resolve⟩ (initJob ⟨none, none⟩) true).cleanupCount = 1
    ∧ (runJob ⟨HBehavior.throwE e, cb, HBehavior.resolve⟩ (initJob ⟨none, none⟩) true).success = some false
    ∧ (runJob ⟨HBehavior.throwE e, cb, HBehavior.resolve⟩ (initJob ⟨none, none⟩) true).error = some e
    ∧ (runJob ⟨HBehavior.throwE e, cb, HBehavior.resolve⟩ (initJob ⟨none, none⟩) true).resolvedWaiters = 1 :=
  ⟨rfl, rfl, rfl, rfl, rfl, rfl, rfl⟩

/-- C2 counterexample: a job whose run handler rejects (the
`asyncError` test of the repository) never enters CANCEL — its cancel
handler is invoked zero times — and goes straight to CLEANUP and
COMPLETED, contradicting the claimed RUN → CANCEL transition on
rejection. -/
theorem c2_rejection_no_cancel_cex :
    (runJob (failB "asyncError") (initJob ⟨none, none⟩) true).cancelCount = 0
    ∧ (runJob (failB "asyncError") (initJob ⟨none, none⟩) true).phase = Phase.COMPLETED
    ∧ (runJob (failB "asyncError") (initJob ⟨none, none⟩) true).cleanupCount = 1
    ∧ (runJob (failB "asyncError") (initJob ⟨none, none⟩) true).success = some false := by
  decide

/-- C2 (amended): when the run handler rejects its completer the Job
leaves RUN directly for CLEANUP (auto-cleanup on) or COMPLETED
(auto-cleanup off) without ever entering CANCEL; `handleCancel` is not
invoked on a run rejection (RUN → CANCEL happens only on timeout or
external abort). -/
theorem c2_rejection_skips_cancel (e : String) (cb : HBehavior) (ac : Bool) :
    (runJob ⟨HBehavior.reject e, cb, HBehavior.resolve⟩ (initJob ⟨none, none⟩) ac).cancelCount = 0
    ∧ (runJob ⟨HBehavior.reject e, cb, HBehavior.resolve⟩ (initJob ⟨none, none⟩) ac).phase = Phase.COMPLETED
    ∧ (runJob ⟨HBehavior.reject e, cb, HBehavior.resolve⟩ (initJob ⟨none, none⟩) ac).success = some false
    ∧ (runJob ⟨HBehavior.reject e, cb, HBehavior.resolve⟩ (initJob ⟨none, none⟩) ac).error = some e
    ∧ (runJob ⟨HBehavior.reject e, cb, HBehavior.resolve⟩ (initJob ⟨none, none⟩) ac).cleanupCount
        = (if ac then 1 else 0) := by
  cases ac <;> exact ⟨rfl, rfl, rfl, rfl, rfl⟩

/-- C6 counterexample: a job whose run handler never signals (no
timeout configured) aborted with reason "user" ends COMPLETED with
`error.message = "max retries reached"`, not the claimed "aborted"
(the abort-time "aborted" sentinel is overwritten by the retry-budget
check when the cancel phase completes). -/
theorem c6_abort_error_cex :
    (abortJob ⟨HBehavior.never, HBehavior.resolve, HBehavior.resolve⟩
        (runJob ⟨HBehavior.never, HBehavior.resolve, HBehavior.resolve⟩
          (initJob ⟨none, none⟩) true) "user").error = some "max retries reached"
    ∧ (abortJob ⟨HBehavior.never, HBehavior.resolve, HBehavior.resolve⟩
        (runJob ⟨HBehavior.never, HBehavior.resolve, HBehavior.resolve⟩
          (initJob ⟨none, none⟩) true) "user").error ≠ some "aborted"
    ∧ (abortJob ⟨HBehavior.never, HBehavior.resolve, HBehavior.resolve⟩
        (runJob ⟨HBehavior.never, HBehavior.resolve, HBehavior.resolve⟩
          (initJob ⟨none, none⟩) true) "user").phase = Phase.COMPLETED := by
  decide

/-- C6 (amended): `error` is set to the "aborted" sentinel at the
moment of the abort, but when the cancel phase completes the
retry-budget check overwrites it, so a job that reaches CLEANUP with
no prior run error carries the sentinel "max retries reached" both on
the retries-exhausted path and on the abort path; the abort remains
observable through `isAbort` and `abortReason`. -/
theorem c6_abort_error_overwritten (reason : String) :
    (abortJob ⟨HBehavior.never, HBehavior.resolve, HBehavior.resolve⟩
        (runJob ⟨HBehavior.never, HBehavior.resolve, HBehavior.resolve⟩
          (initJob ⟨none, none⟩) true) reason).phase = Phase.COMPLETED
    ∧ (abortJob ⟨HBehavior.never, HBehavior.resolve, HBehavior.resolve⟩
        (runJob ⟨HBehavior.never, HBehavior.resolve, HBehavior.resolve⟩
          (initJob ⟨none, none⟩) true) reason).success = some false
    ∧ (abortJob ⟨HBehavior.never, HBehavior.resolve, HBehavior.resolve⟩
        (runJob ⟨HBehavior.never, HBehavior.resolve, HBehavior.resolve⟩
          (initJob ⟨none, none⟩) true) reason).error = some "max retries reached"
    ∧ (abortJob ⟨HBehavior.never, HBehavior.resolve, HBehavior.resolve⟩
        (runJob ⟨HBehavior.never, HBehavior.resolve, HBehavior.resolve⟩
          (initJob ⟨none, none⟩) true) reason).abortR = some reason
    ∧ isAbort (abortJob ⟨HBehavior.never, HBehavior.resolve, HBehavior.resolve⟩
        (runJob ⟨HBehavior.never, HBehavior.resolve, HBehavior.resolve⟩
          (initJob ⟨none, none⟩) true) reason) = true
    ∧ (abortJob ⟨HBehavior.never, HBehavior.resolve, HBehavior.resolve⟩
        (runJob ⟨HBehavior.never, HBehavior.resolve, HBehavior.resolve⟩
          (initJob ⟨none, none⟩) true) reason).cleanupCount = 1 :=
  ⟨rfl, rfl, rfl, rfl, rfl, rfl⟩

/-- C5 counterexample: `abort("user")` on a Job still in NEW is not
valid — the request deferred is rejected ("invalid request"), no
abort reason is recorded, the retry budget is untouched and the job
stays in NEW — contradicting "valid in any non-COMPLETED state". -/
theorem c5_abort_new_rejected_cex :
    abortJob okB (initJob ⟨none, none⟩) "user"
      = { initJob ⟨none, none⟩ with rejections := 1 }
    ∧ (abortJob okB (initJob ⟨none, none⟩) "user").phase = Phase.NEW
    ∧ (abortJob okB (initJob ⟨none, none⟩) "user").abortR = none := by
  decide

/-- C5 (amended): `abort(reason)` is accepted in RUN, CANCEL and
CLEANUP but rejected with an invalid-request error (and no other state
change) in NEW.  When accepted during RUN it records the reason,
forces the retry budget to zero and the job completes with
`success = false`, `isAbort = true` and `abortReason = reason`; a
second abort issued while the first one's CANCEL phase is still
pending is likewise accepted and the job still completes exactly once;
an abort during CLEANUP records the reason and accelerates completion. -/
theorem c5_abort_valid_states (r1 r2 r3 : String) (beh : Behaviors)
    (opts : JobOptions) :
    -- NEW: rejected, state otherwise unmodified
    (abortJob beh (initJob opts) r1
      = { initJob opts with rejections := 1 })
    -- RUN: accepted; completes with the abort outcome
    ∧ ((abortJob ⟨HBehavior.never, HBehavior.resolve, HBehavior.resolve⟩
         (runJob ⟨HBehavior.never, HBehavior.resolve, HBehavior.resolve⟩
           (initJob ⟨none, none⟩) true) r1).phase = Phase.COMPLETED
       ∧ (abortJob ⟨HBehavior.never, HBehavior.resolve, HBehavior.resolve⟩
           (runJob ⟨HBehavior.never, HBehavior.resolve, HBehavior.resolve⟩
             (initJob ⟨none, none⟩) true) r1).success = some false
       ∧ (abortJob ⟨HBehavior.never, HBehavior.resolve, HBehavior.resolve⟩
           (runJob ⟨HBehavior.never, HBehavior.resolve, HBehavior.resolve⟩
             (initJob ⟨none, none⟩) true) r1).abortR = some r1
       ∧ (abortJob ⟨HBehavior.never, HBehavior.resolve, HBehavior.resolve⟩
           (runJob ⟨HBehavior.never, HBehavior.resolve, HBehavior.resolve⟩
             (initJob ⟨none, none⟩) true) r1).retries = 0
       ∧ isAbort (abortJob ⟨HBehavior.never, HBehavior.resolve, HBehavior.resolve⟩
           (runJob ⟨HBehavior.never, HBehavior.resolve, HBehavior.resolve⟩
             (initJob ⟨none, none⟩) true) r1) = true)
    -- CANCEL: a first abort leaves the job pending in CANCEL (cancel
    -- handler never signals, no timeout); a second abort is accepted
    -- and drives the job to COMPLETED
    ∧ ((abortJob ⟨HBehavior.never, HBehavior.never, HBehavior.resolve⟩
         (runJob ⟨HBehavior.never, HBehavior.never, HBehavior.resolve⟩
           (initJob ⟨none, none⟩) true) r2).phase = Phase.CANCEL
       ∧ (abortJob ⟨HBehavior.never, HBehavior.never, HBehavior.resolve⟩
           (abortJob ⟨HBehavior.never, HBehavior.never, HBehavior.resolve⟩
             (runJob ⟨HBehavior.never, HBehavior.never, HBehavior.resolve⟩
               (initJob ⟨none, none⟩) true) r2) r3).phase = Phase.COMPLETED
       ∧ (abortJob ⟨HBehavior.never, HBehavior.never, HBehavior.resolve⟩
           (abortJob ⟨HBehavior.never, HBehavior.never, HBehavior.resolve⟩
             (runJob ⟨HBehavior.never, HBehavior.never, HBehavior.resolve⟩
               (initJob ⟨none, none⟩) true) r2) r3).abortR = some r3
       ∧ (abortJob ⟨HBehavior.never, HBehavior.never, HBehavior.resolve⟩
           (abortJob ⟨HBehavior.never, HBehavior.never, HBehavior.resolve⟩
             (runJob ⟨HBehavior.never, HBehavior.never, HBehavior.resolve⟩
               (initJob ⟨none, none⟩) true) r2) r3).success = some false
       ∧ isAbort (abortJob ⟨HBehavior.never, HBehavior.never, HBehavior.resolve⟩
           (abortJob ⟨HBehavior.never, HBehavior.never, HBehavior.resolve⟩
             (runJob ⟨HBehavior.never, HBehavior.never, HBehavior.resolve⟩
               (initJob ⟨none, none⟩) true) r2) r3) = true)
    -- CLEANUP: accepted; records the reason and completes
    ∧ ((runJob ⟨HBehavior.reject "x", HBehavior.resolve, HBehavior.never⟩
         (initJob ⟨none, none⟩) true).phase = Phase.CLEANUP
       ∧ (abortJob ⟨HBehavior.reject "x", HBehavior.resolve, HBehavior.never⟩
           (runJob ⟨HBehavior.reject "x", HBehavior.resolve, HBehavior.never⟩
             (initJob ⟨none, none⟩) true) r1).phase = Phase.COMPLETED
       ∧ (abortJob ⟨HBehavior.reject "x", HBehavior.resolve, HBehavior.never⟩
           (runJob ⟨HBehavior.reject "x", HBehavior.resolve, HBehavior.never⟩
             (initJob ⟨none, none⟩) true) r1).abortR = some r1
       ∧ (abortJob ⟨HBehavior.reject "x", HBehavior.resolve, HBehavior.never⟩
           (runJob ⟨HBehavior.reject "x", HBehavior.resolve, HBehavior.never⟩
             (initJob ⟨none, none⟩) true) r1).success = some false) :=
  ⟨rfl, ⟨rfl, rfl, rfl, rfl, rfl⟩, ⟨rfl, rfl, rfl, rfl, rfl⟩, ⟨rfl, rfl, rfl, rfl⟩⟩

/-- C9 counterexample: on a COMPLETED job (auto-cleanup off) whose
explicit cleanup already ran once and failed, a second `cleanup()` is
accepted and runs the cleanup handler again (invocation count 2, no
deferred rejection), contradicting "rejected in every other
circumstance including a second cleanup()". -/
theorem c9_second_cleanup_after_failure_cex :
    (cleanupJob (badCleanB "cleanupErr")
        (runJob (badCleanB "cleanupErr") (initJob ⟨none, none⟩) false)).cleanupCount = 1
    ∧ (cleanupJob (badCleanB "cleanupErr")
        (cleanupJob (badCleanB "cleanupErr")
          (runJob (badCleanB "cleanupErr") (initJob ⟨none, none⟩) false))).cleanupCount = 2
    ∧ (cleanupJob (badCleanB "cleanupErr")
        (cleanupJob (badCleanB "cleanupErr")
          (runJob (badCleanB "cleanupErr") (initJob ⟨none, none⟩) false))).rejections = 0 := by
  decide

/-- C9 (amended): an explicit `cleanup()` is accepted exactly when the
job is COMPLETED, auto-cleanup was off and cleanup has not yet
SUCCEEDED (the guard is JavaScript truthiness of
`priv.successCleanup`, so a failed earlier cleanup does not block a
second attempt); in that case the cleanup handler is invoked once more
and the request deferred is not rejected.  In every other circumstance
the request deferred is rejected with an invalid-transition error and
the job state is not otherwise mutated. -/
theorem c9_cleanup_transition (beh : Behaviors) (st : JobState) :
    (st.phase = Phase.COMPLETED → st.autoCleanup = false →
      optTrue st.successCleanup = false →
      (cleanupJob beh st).rejections = st.rejections
      ∧ (cleanupJob beh st).cleanupCount = st.cleanupCount + 1)
    ∧ (¬(st.phase = Phase.COMPLETED ∧ st.autoCleanup = false
          ∧ optTrue st.successCleanup = false) →
      cleanupJob beh st = { st with rejections := st.rejections + 1 }) := by
  obtain ⟨rb, cb, kb⟩ := beh
  obtain ⟨ph, r, su, er, ab, sca, eca, scl, ecl, ac, ht, rc, cc, klc, w, res, rej⟩ := st
  cases ph
  case NEW => exact ⟨(fun h => nomatch h), fun _ => rfl⟩
  case RUN => exact ⟨(fun h => nomatch h), fun _ => rfl⟩
  case CANCEL => exact ⟨(fun h => nomatch h), fun _ => rfl⟩
  case CLEANUP => exact ⟨(fun h => nomatch h), fun _ => rfl⟩
  case COMPLETED =>
    cases ac
    case true => exact ⟨(fun _ hac _ => nomatch hac), fun _ => rfl⟩
    case false =>
      match scl with
      | none =>
        refine ⟨fun _ _ _ => ?_, fun hcon => absurd ⟨rfl, rfl, rfl⟩ hcon⟩
        cases kb <;> cases ht <;> exact ⟨rfl, rfl⟩
      | some false =>
        refine ⟨fun _ _ _ => ?_, fun hcon => absurd ⟨rfl, rfl, rfl⟩ hcon⟩
        cases kb <;> cases ht <;> exact ⟨rfl, rfl⟩
      | some true =>
        exact ⟨(fun _ _ h => nomatch h), fun _ => rfl⟩

/-- C8: `enqueueJob` returns the `null` sentinel exactly when
`failOnBusy` is set and the queue is non-empty; otherwise it returns a
job carrying a fresh `jobId`, appended to the queue, with the `pushed`
event emitted, and the job's execution is not started (it stays in
NEW). -/
theorem c8_enqueue_job (s : Scheduler) (cfg : JobConfig) :
    ((enqueueJob s cfg).2.1 = none ↔ cfg.failOnBusy = true ∧ s.queue ≠ [])
    ∧ (∀ job, (enqueueJob s cfg).2.1 = some job →
        job.jobId = s.nextId
        ∧ job.st = initJob cfg.opts
        ∧ job.st.phase = Phase.NEW
        ∧ (enqueueJob s cfg).1.queue = s.queue ++ [job]
        ∧ (enqueueJob s cfg).2.2 = true
        ∧ ∀ j ∈ s.queue, j.jobId < s.nextId → job.jobId ≠ j.jobId) := by
  by_cases h : (cfg.failOnBusy && isBusy s) = true
  · have hf : cfg.failOnBusy = true := ((Bool.and_eq_true _ _).mp h).1
    have hb : isBusy s = true := ((Bool.and_eq_true _ _).mp h).2
    have hq : s.queue ≠ [] := by simpa [isBusy, List.length_pos] using hb
    have henq : (enqueueJob s cfg).2.1 = none := by simp [enqueueJob, h]
    refine ⟨?_, ?_⟩
    · rw [henq]; simp [hf, hq]
    · intro job hjob
      rw [henq] at hjob
      cases hjob
  · have h' : (cfg.failOnBusy && isBusy s) = false := by
      cases hv : (cfg.failOnBusy && isBusy s)
      · rfl
      · exact absurd hv h
    have henq : enqueueJob s cfg
        = ({ queue := s.queue ++ [⟨s.nextId, cfg.beh, initJob cfg.opts⟩]
           , nextId := s.nextId + 1 },
           some ⟨s.nextId, cfg.beh, initJob cfg.opts⟩, true) := by
      simp [enqueueJob, h']
    refine ⟨?_, ?_⟩
    · rw [henq]
      constructor
      · intro hn; cases hn
      · rintro ⟨hfb, hqne⟩
        have hb : isBusy s = true := by
          simpa [isBusy, List.length_pos] using hqne
        rw [hfb, hb] at h'
        cases h'
    · intro job hjob
      rw [henq] at hjob
      injection hjob with h0
      subst h0
      refine ⟨rfl, rfl, rfl, by rw [henq], by rw [henq], ?_⟩
      intro j _ hlt hEq
      have : s.nextId = j.jobId := hEq
      omega

/-- C10: `processQueue` removes the head job from the queue before
running it, and `isBusy` is true exactly when the queue is non-empty;
hence while the only queued job is executing the scheduler is not
busy and an `enqueueJob` with `failOnBusy` set succeeds. -/
theorem c10_process_queue_not_busy (s : Scheduler) (j : SchedJob)
    (rest : List SchedJob) (h : s.queue = j :: rest) :
    (processQueue s).1.queue = rest
    ∧ (processQueue s).2 = some { j with st := runJob j.beh j.st true }
    ∧ (isBusy (processQueue s).1 = true ↔ rest ≠ [])
    ∧ (rest = [] → ∀ cfg : JobConfig, (enqueueJob (processQueue s).1 cfg).2.1
        = some { jobId := (processQueue s).1.nextId, beh := cfg.beh
               , st := initJob cfg.opts }) := by
  obtain ⟨q, nid⟩ := s
  simp only at h
  subst h
  refine ⟨rfl, rfl, ?_, ?_⟩
  · simp [processQueue, isBusy, List.length_pos]
  · rintro rfl cfg
    simp [processQueue, enqueueJob, isBusy]

/-- Driver step: processing an event that emits a follow-up event
continues the cascade with one unit of fuel consumed. -/
theorem fsm_cont (beh : Behaviors) (g : Nat) (st st' : JobState)
    (ev ev' : Event) (h : fsmStep beh st ev = Sum.inr (st', ev')) :
    fsm beh (g+1) st ev = fsm beh g st' ev' := by
  rw [fsm.eq_2, h]

/-- The `retry` event with more than one retry left decrements the
budget and re-emits the stored run request
(`Job._handleOnRunState`, case `retry`). -/
theorem fsmStep_retry_dec (B : Behaviors) (r rc cc : Nat)
    (sc : Option Bool) (ec : Option String) :
    fsmStep B (C1St (r+2) rc cc sc ec true) Event.retry
      = Sum.inr (C1St (r+1) rc cc sc ec true, Event.enterRun true) := by
  have h2 : r + 2 > 1 := by omega
  simp only [fsmStep, C1St, h2, if_pos]
  norm_num

/-- One full RUN/CANCEL round of the retry-budget scenario: with more
than one retry left, a run attempt that times out and a cancel phase
that signals take the machine back to `enterRun` with the budget
decremented and both invocation counters bumped. -/
theorem fsm_retry_cycle (cb kb : HBehavior) (hcb : cb ≠ HBehavior.never)
    (g r rc cc : Nat) (sc : Option Bool) (ec : Option String) (a : Bool) :
    fsm ⟨HBehavior.never, cb, kb⟩ (g+5) (C1St (r+2) rc cc sc ec a)
        (Event.enterRun true)
      = fsm ⟨HBehavior.never, cb, kb⟩ g
          (C1St (r+1) (rc+1) (cc+1) (sigSCAfter cb sc) (sigECAfter cb ec) true)
          (Event.enterRun true) := by
  cases cb
  case never => exact absurd rfl hcb
  case resolve =>
    calc fsm ⟨HBehavior.never, HBehavior.resolve, kb⟩ (g+5)
            (C1St (r+2) rc cc sc ec a) (Event.enterRun true)
        = fsm ⟨HBehavior.never, HBehavior.resolve, kb⟩ (g+4)
            (C1St (r+2) (rc+1) cc sc ec true) Event.timeout :=
          fsm_cont _ (g+4) _ _ _ _ rfl
      _ = fsm ⟨HBehavior.never, HBehavior.resolve, kb⟩ (g+3)
            (C1StC (r+2) (rc+1) cc sc ec) Event.enterCancel :=
          fsm_cont _ (g+3) _ _ _ _ rfl
      _ = fsm ⟨HBehavior.never, HBehavior.resolve, kb⟩ (g+2)
            (C1StC (r+2) (rc+1) (cc+1) (some true) ec)
            (Event.exitCancel true none) :=
          fsm_cont _ (g+2) _ _ _ _ rfl
      _ = fsm ⟨HBehavior.never, HBehavior.resolve, kb⟩ (g+1)
            (C1St (r+2) (rc+1) (cc+1) (some true) ec true) Event.retry :=
          fsm_cont _ (g+1) _ _ _ _ rfl
      _ = fsm ⟨HBehavior.never, HBehavior.resolve, kb⟩ g
            (C1St (r+1) (rc+1) (cc+1) (some true) ec true)
            (Event.enterRun true) :=
          fsm_cont _ g _ _ _ _ (fsmStep_retry_dec _ r (rc+1) (cc+1) _ _)
      _ = fsm ⟨HBehavior.never, HBehavior.resolve, kb⟩ g
            (C1St (r+1) (rc+1) (cc+1) (sigSCAfter HBehavior.resolve sc)
              (sigECAfter HBehavior.resolve ec) true) (Event.enterRun true) := rfl
  case reject e =>
    calc fsm ⟨HBehavior.never, HBehavior.reject e, kb⟩ (g+5)
            (C1St (r+2) rc cc sc ec a) (Event.enterRun true)
        = fsm ⟨HBehavior.never, HBehavior.reject e, kb⟩ (g+4)
            (C1St (r+2) (rc+1) cc sc ec true) Event.timeout :=
          fsm_cont _ (g+4) _ _ _ _ rfl
      _ = fsm ⟨HBehavior.never, HBehavior.reject e, kb⟩ (g+3)
            (C1StC (r+2) (rc+1) cc sc ec) Event.enterCancel :=
          fsm_cont _ (g+3) _ _ _ _ rfl
      _ = fsm ⟨HBehavior.never, HBehavior.reject e, kb⟩ (g+2)
            (C1StC (r+2) (rc+1) (cc+1) (some false) (some e))
            (Event.exitCancel false (some e)) :=
          fsm_cont _ (g+2) _ _ _ _ rfl
      _ = fsm ⟨HBehavior.never, HBehavior.reject e, kb⟩ (g+1)
            (C1St (r+2) (rc+1) (cc+1) (some false) (some e) true) Event.retry :=
          fsm_cont _ (g+1) _ _ _ _ rfl
      _ = fsm ⟨HBehavior.never, HBehavior.reject e, kb⟩ g
            (C1St (r+1) (rc+1) (cc+1) (some false) (some e) true)
            (Event.enterRun true) :=
          fsm_cont _ g _ _ _ _ (fsmStep_retry_dec _ r (rc+1) (cc+1) _ _)
      _ = fsm ⟨HBehavior.never, HBehavior.reject e, kb⟩ g
            (C1St (r+1) (rc+1) (cc+1) (sigSCAfter (HBehavior.reject e) sc)
              (sigECAfter (HBehavior.reject e) ec) true) (Event.enterRun true) := rfl
  case throwE e =>
    calc fsm ⟨HBehavior.never, HBehavior.throwE e, kb⟩ (g+5)
            (C1St (r+2) rc cc sc ec a) (Event.enterRun true)
        = fsm ⟨HBehavior.never, HBehavior.throwE e, kb⟩ (g+4)
            (C1St (r+2) (rc+1) cc sc ec true) Event.timeout :=
          fsm_cont _ (g+4) _ _ _ _ rfl
      _ = fsm ⟨HBehavior.never, HBehavior.throwE e, kb⟩ (g+3)
            (C1StC (r+2) (rc+1) cc sc ec) Event.enterCancel :=
          fsm_cont _ (g+3) _ _ _ _ rfl
      _ = fsm ⟨HBehavior.never, HBehavior.throwE e, kb⟩ (g+2)
            (C1StC (r+2) (rc+1) (cc+1) (some false) (some e))
            (Event.exitCancel false (some e)) :=
          fsm_cont _ (g+2) _ _ _ _ rfl
      _ = fsm ⟨HBehavior.never, HBehavior.throwE e, kb⟩ (g+1)
            (C1St (r+2) (rc+1) (cc+1) (some false) (some e) true) Event.retry :=
          fsm_cont _ (g+1) _ _ _ _ rfl
      _ = fsm ⟨HBehavior.never, HBehavior.throwE e, kb⟩ g
            (C1St (r+1) (rc+1) (cc+1) (some false) (some e) true)
            (Event.enterRun true) :=
          fsm_cont _ g _ _ _ _ (fsmStep_retry_dec _ r (rc+1) (cc+1) _ _)
      _ = fsm ⟨HBehavior.never, HBehavior.throwE e, kb⟩ g
            (C1St (r+1) (rc+1) (cc+1) (sigSCAfter (HBehavior.throwE e) sc)
              (sigECAfter (HBehavior.throwE e) ec) true) (Event.enterRun true) := rfl

/-- The last RUN/CANCEL round of the retry-budget scenario: with one
retry left, the retry check fails, the error is set to the
"max retries reached" sentinel and the machine cleans up and
completes. -/
theorem fsm_retry_final (cb kb : HBehavior) (hcb : cb ≠ HBehavior.never)
    (g rc cc : Nat) (sc : Option Bool) (ec : Option String) (a : Bool) :
    fsm ⟨HBehavior.never, cb, kb⟩ (g+7) (C1St 1 rc cc sc ec a)
        (Event.enterRun true)
      = C1Final (rc+1) (cc+1) (sigSCAfter cb sc) (sigECAfter cb ec) kb := by
  cases cb
  case never => exact absurd rfl hcb
  all_goals cases kb <;> rfl

/-- The retry-budget scenario, run to completion from `k+1` remaining
retries. -/
theorem fsm_retry_run (cb kb : HBehavior) (hcb : cb ≠ HBehavior.never) :
    ∀ k g rc cc (sc : Option Bool) (ec : Option String) (a : Bool),
    fsm ⟨HBehavior.never, cb, kb⟩ (g + 5*k + 7) (C1St (k+1) rc cc sc ec a)
        (Event.enterRun true)
      = C1Final (rc+k+1) (cc+k+1) (sigSCAfter cb sc) (sigECAfter cb ec) kb := by
  intro k
  induction k with
  | zero =>
    intro g rc cc sc ec a
    exact fsm_retry_final cb kb hcb (g + 5*0) rc cc sc ec a
  | succ n ih =>
    intro g rc cc sc ec a
    have h5 : g + 5*(n+1) + 7 = (g + 5*n + 7) + 5 := by ring
    calc fsm ⟨HBehavior.never, cb, kb⟩ (g + 5*(n+1) + 7)
            (C1St (n+1+1) rc cc sc ec a) (Event.enterRun true)
        = fsm ⟨HBehavior.never, cb, kb⟩ ((g + 5*n + 7) + 5)
            (C1St (n+2) rc cc sc ec a) (Event.enterRun true) := by rw [h5]
      _ = fsm ⟨HBehavior.never, cb, kb⟩ (g + 5*n + 7)
            (C1St (n+1) (rc+1) (cc+1) (sigSCAfter cb sc) (sigECAfter cb ec) true)
            (Event.enterRun true) :=
          fsm_retry_cycle cb kb hcb (g + 5*n + 7) n rc cc sc ec a
      _ = C1Final (rc+1+n+1) (cc+1+n+1)
            (sigSCAfter cb (sigSCAfter cb sc)) (sigECAfter cb (sigECAfter cb ec)) kb :=
          ih g (rc+1) (cc+1) (sigSCAfter cb sc) (sigECAfter cb ec) true
      _ = C1Final (rc+(n+1)+1) (cc+(n+1)+1)
            (sigSCAfter cb sc) (sigECAfter cb ec) kb := by
          have h1 : rc+1+n+1 = rc+(n+1)+1 := by ring
          have h2 : cc+1+n+1 = cc+(n+1)+1 := by ring
          have h3 : sigSCAfter cb (sigSCAfter cb sc) = sigSCAfter cb sc := by
            cases cb <;> rfl
          have h4 : sigECAfter cb (sigECAfter cb ec) = sigECAfter cb ec := by
            cases cb <;> rfl
          rw [h1, h2, h3, h4]

/-- C1: a Job constructed with a positive timeout and positive
`maxRetries = N` whose run handler never signals its completer (its
cancel handler signalling one way or another), run with auto-cleanup
on, invokes `handleRun` exactly N times and `handleCancel` exactly N
times, invokes `handleCleanup` exactly once, and completes (resolving
the run promise) with `success = false` and
`error.message = "max retries reached"`. -/
theorem c1_retry_budget (N T : Nat) (cb kb : HBehavior)
    (hN : 0 < N) (hT : 0 < T) (hcb : cb ≠ HBehavior.never) :
    (runJob ⟨HBehavior.never, cb, kb⟩ (initJob ⟨some N, some T⟩) true).phase
        = Phase.COMPLETED
    ∧ (runJob ⟨HBehavior.never, cb, kb⟩ (initJob ⟨some N, some T⟩) true).runCount = N
    ∧ (runJob ⟨HBehavior.never, cb, kb⟩ (initJob ⟨some N, some T⟩) true).cancelCount = N
    ∧ (runJob ⟨HBehavior.never, cb, kb⟩ (initJob ⟨some N, some T⟩) true).cleanupCount = 1
    ∧ (runJob ⟨HBehavior.never, cb, kb⟩ (initJob ⟨some N, some T⟩) true).success = some false
    ∧ (runJob ⟨HBehavior.never, cb, kb⟩ (initJob ⟨some N, some T⟩) true).error
        = some "max retries reached"
    ∧ (runJob ⟨HBehavior.never, cb, kb⟩ (initJob ⟨some N, some T⟩) true).resolvedWaiters = 1
    ∧ isAbort (runJob ⟨HBehavior.never, cb, kb⟩ (initJob ⟨some N, some T⟩) true) = false := by
  obtain ⟨M, rfl⟩ : ∃ M, N = M + 1 := ⟨N-1, by omega⟩
  have hinit : initJob ⟨some (M+1), some T⟩
      = { phase := Phase.NEW, retries := M+1, success := none, error := none
        , abortR := none, successCancel := none, errorCancel := none
        , successCleanup := none, errorCleanup := none, autoCleanup := false
        , hasTimeout := true, runCount := 0, cancelCount := 0, cleanupCount := 0
        , waiters := 0, resolvedWaiters := 0, rejections := 0 } := by
    have ht : (T != 0) = true := by
      simp [bne_iff_ne]
      omega
    simp [initJob, ht]
  have hrun : runJob ⟨HBehavior.never, cb, kb⟩ (initJob ⟨some (M+1), some T⟩) true
      = fsm ⟨HBehavior.never, cb, kb⟩ (5*(M+1)+15)
          (C1St (M+1) 0 0 none none false) (Event.enterRun true) := by
    rw [runJob, hinit]
    exact fsm_cont _ (5*(M+1)+15) _ _ _ _ rfl
  have h5 : 5*(M+1)+15 = 13 + 5*M + 7 := by ring
  rw [hrun, h5, fsm_retry_run cb kb hcb M 13 0 0 none none false]
  refine ⟨rfl, ?_, ?_, rfl, rfl, rfl, rfl, rfl⟩ <;> simp [C1Final]

/-- A child whose run handler resolves ends in `okChildState`
regardless of its other handlers (they are not invoked during a run
with auto-cleanup off). -/
theorem runChild_resolve (c : Behaviors) (h : c.runB = HBehavior.resolve) :
    runChildJob c = okChildState := by
  obtain ⟨rb, cb, kb⟩ := c
  simp only at h
  subst h
  rfl

/-- A child whose run handler rejects with `e` ends in
`failRunState e`. -/
theorem runChild_reject (c : Behaviors) (e : String)
    (h : c.runB = HBehavior.reject e) :
    runChildJob c = failRunState e := by
  obtain ⟨rb, cb, kb⟩ := c
  simp only at h
  subst h
  rfl

/-- Explicit cleanup of a successfully-run child whose cleanup handler
resolves. -/
theorem cleanupJob_okChild_resolve (rb cb : HBehavior) :
    cleanupJob ⟨rb, cb, HBehavior.resolve⟩ okChildState = cleanedOk := rfl

/-- Explicit cleanup of the failed child whose cleanup handler
resolves. -/
theorem cleanupJob_fail_resolve (rb cb : HBehavior) (e : String) :
    cleanupJob ⟨rb, cb, HBehavior.resolve⟩ (failRunState e) = cleanedFail e := rfl

/-- Explicit cleanup of a successfully-run child whose cleanup handler
rejects with `e`. -/
theorem cleanupJob_okChild_reject (rb cb : HBehavior) (e : String) :
    cleanupJob ⟨rb, cb, HBehavior.reject e⟩ okChildState = cleanedBad e := rfl

/-- One backward cleanup step over a successfully-run child whose
cleanup resolves. -/
theorem cleanupStepAt_ok (total n : Nat) (specs : List Behaviors)
    (states : List JobState) (c : Behaviors)
    (h1 : specs[n]? = some c) (h2 : states[n]? = some okChildState)
    (hc : c.cleanupB = HBehavior.resolve) :
    cleanupStepAt total specs states n
      = CleanupStepOut.ok ⟨n, total, some true, none⟩ := by
  obtain ⟨rb, cb, kb⟩ := c
  simp only at hc
  subst hc
  simp only [cleanupStepAt, h1, h2]
  rw [cleanupJob_okChild_resolve]
  simp [cleanedOk, okChildState, optTrue]

/-- One backward cleanup step over the failed child (cleanup
resolves). -/
theorem cleanupStepAt_fail_ok (total n : Nat) (specs : List Behaviors)
    (states : List JobState) (c : Behaviors) (e : String)
    (h1 : specs[n]? = some c) (h2 : states[n]? = some (failRunState e))
    (hc : c.cleanupB = HBehavior.resolve) :
    cleanupStepAt total specs states n
      = CleanupStepOut.ok ⟨n, total, some true, none⟩ := by
  obtain ⟨rb, cb, kb⟩ := c
  simp only at hc
  subst hc
  simp only [cleanupStepAt, h1, h2]
  rw [cleanupJob_fail_resolve]
  simp [cleanedFail, failRunState, okChildState, optTrue]

/-- One backward cleanup step over a child whose cleanup rejects. -/
theorem cleanupStepAt_rejected (total n : Nat) (specs : List Behaviors)
    (states : List JobState) (c : Behaviors) (e : String)
    (h1 : specs[n]? = some c) (h2 : states[n]? = some okChildState)
    (hc : c.cleanupB = HBehavior.reject e) :
    cleanupStepAt total specs states n
      = CleanupStepOut.rejected ⟨n, total, some false, some e⟩ (some e) := by
  obtain ⟨rb, cb, kb⟩ := c
  simp only at hc
  subst hc
  simp only [cleanupStepAt, h1, h2]
  rw [cleanupJob_okChild_reject]
  simp [cleanedBad, okChildState, optTrue]

/-- A backward pass whose every step down to 0 succeeds is exhaustive
and produces the descending all-success trace. -/
theorem cleanupFromNat_all_ok (total : Nat) (specs : List Behaviors)
    (states : List JobState) :
    ∀ n, (∀ m, m ≤ n → cleanupStepAt total specs states m
            = CleanupStepOut.ok ⟨m, total, some true, none⟩) →
    cleanupFromNat total specs states n
      = ⟨okCleanupTrace total n n, none, false⟩ := by
  intro n
  induction n with
  | zero =>
    intro H
    rw [cleanupFromNat, H 0 (Nat.le_refl 0)]
    rfl
  | succ k ih =>
    intro H
    rw [cleanupFromNat, H (k+1) (Nat.le_refl _),
      ih (fun m hm => H m (Nat.le_succ_of_le hm))]
    rfl

/-- A backward pass that succeeds from `lo + k` down to `lo + 1` and
whose step at `lo` rejects stops at `lo` with the composite's cleanup
deferred rejected. -/
theorem cleanupFromNat_stops (total : Nat) (specs : List Behaviors)
    (states : List JobState) (lo : Nat) (eB : String) :
    ∀ k, (∀ m, lo < m → m ≤ lo + k → cleanupStepAt total specs states m
            = CleanupStepOut.ok ⟨m, total, some true, none⟩) →
    cleanupStepAt total specs states lo
      = CleanupStepOut.rejected ⟨lo, total, some false, some eB⟩ (some eB) →
    cleanupFromNat total specs states (lo + k)
      = ⟨cleanupTrace total (some eB) (lo + k) k, some (some eB), false⟩ := by
  intro k
  induction k with
  | zero =>
    intro _ HB
    rw [Nat.add_zero]
    cases lo with
    | zero =>
      rw [cleanupFromNat, HB]
      rfl
    | succ j =>
      rw [cleanupFromNat, HB]
      rfl
  | succ k ih =>
    intro HOk HB
    rw [Nat.add_succ, cleanupFromNat,
      HOk (lo+k+1) (by omega) (by omega),
      ih (fun m h1 h2 => HOk m h1 (by omega)) HB]
    rfl

/-- The forward pass over a prefix of children whose run handlers all
resolve: it records one success state and one success progress record
per child and continues with the rest. -/
theorem forward_ok_leading (total : Nat) :
    ∀ (pre cs' : List Behaviors) (i : Nat),
    (∀ c ∈ pre, c.runB = HBehavior.resolve) →
    forward total i (pre ++ cs')
      = { forward total (i + pre.length) cs' with
          states := List.replicate pre.length okChildState
                      ++ (forward total (i + pre.length) cs').states,
          prog := okFwdTrace total i pre.length
                    ++ (forward total (i + pre.length) cs').prog } := by
  intro pre
  induction pre with
  | nil =>
    intro cs' i _
    simp [okFwdTrace]
  | cons c pre' ih =>
    intro cs' i h
    have hc : c.runB = HBehavior.resolve := h c (by simp)
    show forward total i (c :: (pre' ++ cs')) = _
    rw [forward, runChild_resolve c hc]
    rw [ih cs' (i+1) (fun d hd => h d (List.mem_cons_of_mem c hd))]
    simp only [List.length_cons]
    have hlen : i + (pre'.length + 1) = i + 1 + pre'.length := by omega
    rw [hlen]
    simp [okChildState, optTrue, List.replicate_succ, okFwdTrace]

/-- The indices of the all-success backward trace descend one by
one. -/
theorem okCleanupTrace_map_index (total : Nat) :
    ∀ k n, (okCleanupTrace total n k).map (fun p => p.index) = downSeg n k := by
  intro k
  induction k with
  | zero => intro n; rfl
  | succ k ih =>
    intro n
    show Progress.index _ :: (okCleanupTrace total (n-1) k).map _ = _
    rw [ih (n-1)]
    rfl

/-- The indices of the stopped backward trace descend one by one. -/
theorem cleanupTrace_map_index (total : Nat) (e : Option String) :
    ∀ k n, (cleanupTrace total e n k).map (fun p => p.index) = downSeg n k := by
  intro k
  induction k with
  | zero => intro n; rfl
  | succ k ih =>
    intro n
    show Progress.index _ :: (cleanupTrace total e (n-1) k).map _ = _
    rw [ih (n-1)]
    rfl

/-- Assembly of `runComposite` in the scenario where the forward pass
fails with `e` at index `f` and the backward pass completes with every
child cleanup succeeding. -/
theorem runComposite_fail_cleanok (children : List Behaviors) (e : String)
    (sts : List JobState) (fp cp : List Progress) (f : Nat)
    (hfwd : forward children.length 0 children
      = ⟨sts, fp, (f : Int), some (some e), false⟩)
    (hclean : cleanupFromNat children.length children sts f = ⟨cp, none, false⟩) :
    runComposite children
      = { job := ⟨Phase.COMPLETED, 1, some false, some e, none, none, none,
                  some true, none, true, false, 1, 0, 1, 0, 1, 0⟩
        , progress := fp, cleanupProgress := cp } := by
  rw [runComposite, hfwd]
  simp only [cleanupStart]
  rw [if_neg (not_lt.mpr (Int.natCast_nonneg f))]
  simp only [Int.toNat_natCast]
  rw [hclean]
  rfl

/-- Assembly of `runComposite` in the scenario where the forward pass
fails with `e` at index `f` and the backward pass stops on a child
cleanup rejection with `eB`. -/
theorem runComposite_fail_cleanstop (children : List Behaviors) (e eB : String)
    (sts : List JobState) (fp cp : List Progress) (f : Nat)
    (hfwd : forward children.length 0 children
      = ⟨sts, fp, (f : Int), some (some e), false⟩)
    (hclean : cleanupFromNat children.length children sts f
      = ⟨cp, some (some eB), false⟩) :
    runComposite children
      = { job := ⟨Phase.COMPLETED, 1, some false, some e, none, none, none,
                  some false, some eB, true, false, 1, 0, 1, 0, 1, 0⟩
        , progress := fp, cleanupProgress := cp } := by
  rw [runComposite, hfwd]
  simp only [cleanupStart]
  rw [if_neg (not_lt.mpr (Int.natCast_nonneg f))]
  simp only [Int.toNat_natCast]
  rw [hclean]
  rfl

/-- C3 (amended): for a CompositeJob whose children at indices 0..k
run successfully, whose child at index k+1 fails, and whose child
cleanups all resolve, the cleanup invocations occur at indices
k+1, k, ..., 0 in that exact order — the failing child at index k+1
IS the first one cleaned (the pass starts at `priv.currentStepIndex`,
which still points at the failing child).  The composite completes
with `success = false` and the failing child's error. -/
theorem c3_cleanup_reverse_from_failing (pre post : List Behaviors)
    (fc : Behaviors) (e : String)
    (hpre : ∀ c ∈ pre, c.runB = HBehavior.resolve ∧ c.cleanupB = HBehavior.resolve)
    (hfr : fc.runB = HBehavior.reject e) (hfc : fc.cleanupB = HBehavior.resolve) :
    (runComposite (pre ++ fc :: post)).cleanupProgress
        = okCleanupTrace (pre ++ fc :: post).length pre.length pre.length
    ∧ (runComposite (pre ++ fc :: post)).cleanupProgress.map (fun p => p.index)
        = downSeg pre.length pre.length
    ∧ (runComposite (pre ++ fc :: post)).job.phase = Phase.COMPLETED
    ∧ (runComposite (pre ++ fc :: post)).job.success = some false
    ∧ (runComposite (pre ++ fc :: post)).job.error = some e
    ∧ (runComposite (pre ++ fc :: post)).progress
        = okFwdTrace (pre ++ fc :: post).length 0 pre.length
            ++ [⟨pre.length, (pre ++ fc :: post).length, some false, some e⟩] := by
  have hrunpre : ∀ c ∈ pre, c.runB = HBehavior.resolve := fun c hc => (hpre c hc).1
  have hr : forward (pre ++ fc :: post).length (0 + pre.length) (fc :: post)
      = ⟨[failRunState e],
         [⟨pre.length, (pre ++ fc :: post).length, some false, some e⟩],
         (pre.length : Int), some (some e), false⟩ := by
    rw [forward, runChild_reject fc e hfr]
    simp [failRunState, okChildState, optTrue]
  have hfwd : forward (pre ++ fc :: post).length 0 (pre ++ fc :: post)
      = ⟨List.replicate pre.length okChildState ++ [failRunState e],
         okFwdTrace (pre ++ fc :: post).length 0 pre.length
           ++ [⟨pre.length, (pre ++ fc :: post).length, some false, some e⟩],
         (pre.length : Int), some (some e), false⟩ := by
    rw [forward_ok_leading _ pre (fc :: post) 0 hrunpre, hr]
  have hsteps : ∀ m, m ≤ pre.length →
      cleanupStepAt (pre ++ fc :: post).length (pre ++ fc :: post)
          (List.replicate pre.length okChildState ++ [failRunState e]) m
        = CleanupStepOut.ok ⟨m, (pre ++ fc :: post).length, some true, none⟩ := by
    intro m hm
    rcases Nat.lt_or_ge m pre.length with hlt | hge
    · obtain ⟨c, hcm⟩ : ∃ c, pre[m]? = some c := by
        rw [List.getElem?_eq_getElem hlt]
        exact ⟨_, rfl⟩
      have hcmem : c ∈ pre := List.getElem?_mem hcm
      have h1 : (pre ++ fc :: post)[m]? = some c := by
        rw [List.getElem?_append]
        simp [hlt, hcm]
      have h2 : (List.replicate pre.length okChildState ++ [failRunState e])[m]?
          = some okChildState := by
        rw [List.getElem?_append]
        simp [hlt, List.getElem?_replicate]
      exact cleanupStepAt_ok _ m _ _ _ h1 h2 (hpre _ hcmem).2
    · have hm' : m = pre.length := Nat.le_antisymm hm hge
      subst hm'
      have h1 : (pre ++ fc :: post)[pre.length]? = some fc := by
        rw [List.getElem?_append_right (Nat.le_refl _)]
        simp
      have h2 : (List.replicate pre.length okChildState ++ [failRunState e])[pre.length]?
          = some (failRunState e) := by
        rw [List.getElem?_append_right (by simp)]
        simp
      exact cleanupStepAt_fail_ok _ _ _ _ _ e h1 h2 hfc
  have hclean := cleanupFromNat_all_ok (pre ++ fc :: post).length
      (pre ++ fc :: post) (List.replicate pre.length okChildState ++ [failRunState e])
      pre.length hsteps
  rw [runComposite_fail_cleanok (pre ++ fc :: post) e _ _ _ pre.length hfwd hclean]
  exact ⟨rfl, okCleanupTrace_map_index _ _ _, rfl, rfl, rfl, rfl⟩

/-- C4 (amended): during a CompositeJob's cleanup pass, the first
child cleanup rejection is recorded as the composite's `errorCleanup`,
but the pass STOPS there: children at lower indices — although they
entered RUN — do not have their cleanup invoked.  Concretely, with
run-ok children `A`, a child `bc` whose cleanup rejects with `eB`,
run-ok children `B` and a failing child `fc`, the cleanup trace runs
from the failing index down to `bc`'s index only. -/
theorem c4_cleanup_stops_on_rejection (A B post : List Behaviors)
    (bc fc : Behaviors) (eB e : String)
    (hA : ∀ c ∈ A, c.runB = HBehavior.resolve ∧ c.cleanupB = HBehavior.resolve)
    (hB : ∀ c ∈ B, c.runB = HBehavior.resolve ∧ c.cleanupB = HBehavior.resolve)
    (hbcr : bc.runB = HBehavior.resolve) (hbcc : bc.cleanupB = HBehavior.reject eB)
    (hfr : fc.runB = HBehavior.reject e) (hfc : fc.cleanupB = HBehavior.resolve) :
    (runComposite ((A ++ bc :: B) ++ fc :: post)).job.errorCleanup = some eB
    ∧ (runComposite ((A ++ bc :: B) ++ fc :: post)).job.successCleanup = some false
    ∧ (runComposite ((A ++ bc :: B) ++ fc :: post)).cleanupProgress
        = cleanupTrace ((A ++ bc :: B) ++ fc :: post).length (some eB)
            (A.length + (B.length + 1)) (B.length + 1)
    ∧ (runComposite ((A ++ bc :: B) ++ fc :: post)).cleanupProgress.map (fun p => p.index)
        = downSeg (A.length + (B.length + 1)) (B.length + 1)
    ∧ (runComposite ((A ++ bc :: B) ++ fc :: post)).job.phase = Phase.COMPLETED
    ∧ (runComposite ((A ++ bc :: B) ++ fc :: post)).job.success = some false
    ∧ (runComposite ((A ++ bc :: B) ++ fc :: post)).job.error = some e := by
  have hP : ∀ c ∈ A ++ bc :: B, c.runB = HBehavior.resolve := by
    intro c hc
    rcases List.mem_append.mp hc with h | h
    · exact (hA c h).1
    · rcases List.mem_cons.mp h with h | h
      · rw [h]; exact hbcr
      · exact (hB c h).1
  have hPlen : (A ++ bc :: B).length = A.length + (B.length + 1) := by simp
  have hr : forward ((A ++ bc :: B) ++ fc :: post).length
        (0 + (A ++ bc :: B).length) (fc :: post)
      = ⟨[failRunState e],
         [⟨A.length + (B.length + 1), ((A ++ bc :: B) ++ fc :: post).length,
           some false, some e⟩],
         ((A.length + (B.length + 1) : Nat) : Int), some (some e), false⟩ := by
    rw [forward, runChild_reject fc e hfr]
    simp [failRunState, okChildState, optTrue]
  have hfwd : forward ((A ++ bc :: B) ++ fc :: post).length 0
        ((A ++ bc :: B) ++ fc :: post)
      = ⟨List.replicate (A ++ bc :: B).length okChildState ++ [failRunState e],
         okFwdTrace ((A ++ bc :: B) ++ fc :: post).length 0 (A ++ bc :: B).length
           ++ [⟨A.length + (B.length + 1), ((A ++ bc :: B) ++ fc :: post).length,
                some false, some e⟩],
         ((A.length + (B.length + 1) : Nat) : Int), some (some e), false⟩ := by
    rw [forward_ok_leading _ (A ++ bc :: B) (fc :: post) 0 hP, hr]
  have hsteps : ∀ m, A.length < m → m ≤ A.length + (B.length + 1) →
      cleanupStepAt ((A ++ bc :: B) ++ fc :: post).length ((A ++ bc :: B) ++ fc :: post)
          (List.replicate (A ++ bc :: B).length okChildState ++ [failRunState e]) m
        = CleanupStepOut.ok ⟨m, ((A ++ bc :: B) ++ fc :: post).length, some true, none⟩ := by
    intro m hlo hhi
    rcases Nat.lt_or_ge m (A ++ bc :: B).length with hlt | hge
    · have hmB : m - A.length - 1 < B.length := by
        rw [hPlen] at hlt
        omega
      obtain ⟨c, hcm⟩ : ∃ c, B[m - A.length - 1]? = some c := by
        rw [List.getElem?_eq_getElem hmB]
        exact ⟨_, rfl⟩
      have hcmem : c ∈ B := List.getElem?_mem hcm
      have h1 : ((A ++ bc :: B) ++ fc :: post)[m]? = some c := by
        rw [List.getElem?_append]
        simp only [hlt, if_true]
        rw [List.getElem?_append_right (by omega)]
        have hmA : 1 ≤ m - A.length := by omega
        rw [show (bc :: B) = [bc] ++ B from rfl,
          List.getElem?_append_right (by simpa using hmA)]
        simpa using hcm
      have h2 : (List.replicate (A ++ bc :: B).length okChildState ++ [failRunState e])[m]?
          = some okChildState := by
        have hlt2 : m < A.length + (B.length + 1) := by
          rw [hPlen] at hlt
          omega
        rw [List.getElem?_append]
        simp [hPlen, hlt2, List.getElem?_replicate]
      exact cleanupStepAt_ok _ m _ _ _ h1 h2 (hB _ hcmem).2
    · have hm' : m = (A ++ bc :: B).length := by
        rw [hPlen] at hge ⊢
        omega
      subst hm'
      have h1 : ((A ++ bc :: B) ++ fc :: post)[(A ++ bc :: B).length]? = some fc := by
        rw [List.getElem?_append_right (Nat.le_refl _)]
        simp
      have h2 : (List.replicate (A ++ bc :: B).length okChildState
            ++ [failRunState e])[(A ++ bc :: B).length]?
          = some (failRunState e) := by
        rw [List.getElem?_append_right (by simp)]
        simp
      exact cleanupStepAt_fail_ok _ _ _ _ _ e h1 h2 hfc
  have hbad : cleanupStepAt ((A ++ bc :: B) ++ fc :: post).length
        ((A ++ bc :: B) ++ fc :: post)
        (List.replicate (A ++ bc :: B).length okChildState ++ [failRunState e])
        A.length
      = CleanupStepOut.rejected
          ⟨A.length, ((A ++ bc :: B) ++ fc :: post).length, some false, some eB⟩
          (some eB) := by
    have h1 : ((A ++ bc :: B) ++ fc :: post)[A.length]? = some bc := by
      have hlt : A.length < (A ++ bc :: B).length := by
        rw [hPlen]
        omega
      rw [List.getElem?_append]
      simp only [hlt, if_true]
      rw [List.getElem?_append_right (Nat.le_refl _)]
      simp
    have h2 : (List.replicate (A ++ bc :: B).length okChildState
          ++ [failRunState e])[A.length]?
        = some okChildState := by
      have hlt2 : A.length < A.length + (B.length + 1) := by omega
      rw [List.getElem?_append]
      simp [hPlen, hlt2, List.getElem?_replicate]
    exact cleanupStepAt_rejected _ _ _ _ _ eB h1 h2 hbcc
  have hclean := cleanupFromNat_stops ((A ++ bc :: B) ++ fc :: post).length
      ((A ++ bc :: B) ++ fc :: post)
      (List.replicate (A ++ bc :: B).length okChildState ++ [failRunState e])
      A.length eB (B.length + 1) hsteps hbad
  rw [runComposite_fail_cleanstop ((A ++ bc :: B) ++ fc :: post) e eB _ _ _
    (A.length + (B.length + 1)) hfwd hclean]
  exact ⟨rfl, rfl, rfl, cleanupTrace_map_index _ _ _ _, rfl, rfl, rfl⟩

/-- C3 counterexample: for `[Ok, Fail "x", Ok]` (children 0..k = {0}
succeed, child k+1 = 1 fails) the cleanup invocations are at indices
[1, 0], not [0]: the failing child IS among them, contradicting the
claim that cleanup runs at k..0 only. -/
theorem c3_failing_child_cleaned_cex :
    (runComposite [okB, failB "x", okB]).progress.map (fun p => p.index) = [0, 1]
    ∧ (runComposite [okB, failB "x", okB]).cleanupProgress.map (fun p => p.index) = [1, 0]
    ∧ ¬((runComposite [okB, failB "x", okB]).cleanupProgress.map (fun p => p.index) = [0]) := by
  decide

/-- C4 counterexample: with children `[Ok, BadCleanup "bErr", Fail "x"]`
every child entered RUN (progress at 0, 1, 2), the first cleanup
rejection is recorded as `errorCleanup = "bErr"`, but the pass stops:
child 0's cleanup is never invoked, contradicting "continues through
every remaining lower index". -/
theorem c4_cleanup_not_exhaustive_cex :
    (runComposite [okB, badCleanB "bErr", failB "x"]).progress.map (fun p => p.index)
        = [0, 1, 2]
    ∧ (runComposite [okB, badCleanB "bErr", failB "x"]).cleanupProgress.map
        (fun p => p.index) = [2, 1]
    ∧ (runComposite [okB, badCleanB "bErr", failB "x"]).job.errorCleanup = some "bErr"
    ∧ ¬(0 ∈ (runComposite [okB, badCleanB "bErr", failB "x"]).cleanupProgress.map
        (fun p => p.index)) := by
  decide

/-- Witness for C1 at `N = 3, T = 10` with a throwing cancel handler
(the repository's own `failedTimeoutMaxRetries` test scenario). -/
theorem c1_retry_budget_witness :
    (0 < 3 ∧ 0 < 10 ∧ HBehavior.throwE "cancelError" ≠ HBehavior.never)
    ∧ (runJob ⟨HBehavior.never, HBehavior.throwE "cancelError",
          HBehavior.throwE "cleanupError"⟩ (initJob ⟨some 3, some 10⟩) true).runCount = 3
    ∧ (runJob ⟨HBehavior.never, HBehavior.throwE "cancelError",
          HBehavior.throwE "cleanupError"⟩ (initJob ⟨some 3, some 10⟩) true).cancelCount = 3
    ∧ (runJob ⟨HBehavior.never, HBehavior.throwE "cancelError",
          HBehavior.throwE "cleanupError"⟩ (initJob ⟨some 3, some 10⟩) true).cleanupCount = 1 :=
  ⟨⟨by decide, by decide, by decide⟩,
   (c1_retry_budget 3 10 (HBehavior.throwE "cancelError") (HBehavior.throwE "cleanupError")
     (by decide) (by decide) (by decide)).2.1,
   (c1_retry_budget 3 10 (HBehavior.throwE "cancelError") (HBehavior.throwE "cleanupError")
     (by decide) (by decide) (by decide)).2.2.1,
   (c1_retry_budget 3 10 (HBehavior.throwE "cancelError") (HBehavior.throwE "cleanupError")
     (by decide) (by decide) (by decide)).2.2.2.1⟩

/-- Witness for C9 at a job still in NEW: the cleanup request is
rejected and only the rejection counter changes. -/
theorem c9_cleanup_transition_witness :
    cleanupJob okB (initJob ⟨none, none⟩)
      = { initJob ⟨none, none⟩ with
          rejections := (initJob ⟨none, none⟩).rejections + 1 } :=
  (c9_cleanup_transition okB (initJob ⟨none, none⟩)).2 (by decide)

/-- Witness for C8 on an empty scheduler. -/
theorem c8_enqueue_job_witness :
    (SchedJob.mk 5 okB (initJob ⟨none, none⟩)).jobId = 5
    ∧ (enqueueJob ⟨[], 5⟩ ⟨false, ⟨none, none⟩, okB⟩).1.queue
        = [] ++ [⟨5, okB, initJob ⟨none, none⟩⟩] := by
  have h := (c8_enqueue_job ⟨[], 5⟩ ⟨false, ⟨none, none⟩, okB⟩).2
    ⟨5, okB, initJob ⟨none, none⟩⟩ (by decide)
  exact ⟨h.1, h.2.2.2.1⟩

/-- Witness for C10 on a one-job queue. -/
theorem c10_process_queue_not_busy_witness :
    (processQueue ⟨[⟨0, okB, initJob ⟨none, none⟩⟩], 1⟩).1.queue = []
    ∧ (enqueueJob (processQueue ⟨[⟨0, okB, initJob ⟨none, none⟩⟩], 1⟩).1
        ⟨true, ⟨none, none⟩, okB⟩).2.1
      = some ⟨(processQueue ⟨[⟨0, okB, initJob ⟨none, none⟩⟩], 1⟩).1.nextId,
              okB, initJob ⟨none, none⟩⟩ := by
  have h := c10_process_queue_not_busy ⟨[⟨0, okB, initJob ⟨none, none⟩⟩], 1⟩
    ⟨0, okB, initJob ⟨none, none⟩⟩ [] rfl
  exact ⟨h.1, h.2.2.2 rfl ⟨true, ⟨none, none⟩, okB⟩⟩

/-- Witness for C3 (amended) on `[Ok, Fail "x", Ok]`. -/
theorem c3_cleanup_reverse_from_failing_witness :
    (runComposite ([okB] ++ failB "x" :: [okB])).cleanupProgress.map (fun p => p.index)
        = downSeg 1 1
    ∧ (runComposite ([okB] ++ failB "x" :: [okB])).job.error = some "x" := by
  have h := c3_cleanup_reverse_from_failing [okB] [okB] (failB "x") "x"
    (by decide) (by decide) (by decide)
  exact ⟨h.2.1, h.2.2.2.2.1⟩

/-- Witness for C4 (amended) on `[Ok, BadCleanup "bErr", Ok, Fail "x"]`. -/
theorem c4_cleanup_stops_on_rejection_witness :
    (runComposite (([okB] ++ badCleanB "bErr" :: [okB]) ++ failB "x" :: [])).job.errorCleanup
        = some "bErr"
    ∧ (runComposite (([okB] ++ badCleanB "bErr" :: [okB]) ++ failB "x" :: [])).cleanupProgress.map
        (fun p => p.index) = downSeg (1 + (1 + 1)) (1 + 1) := by
  have h := c4_cleanup_stops_on_rejection [okB] [okB] [] (badCleanB "bErr") (failB "x")
    "bErr" "x" (by decide) (by decide) (by decide) (by decide) (by decide) (by decide)
  exact ⟨h.1, h.2.2.2.1⟩
